import Mathlib

/-
Shallow embedding of src/app.py (minimalsend/getmark): a Flask service that
downloads an image, overlays a rotated, tiled, semi-transparent logo, and
returns the composited image.

Modelling conventions:
* An image buffer is a width, a height and a total pixel function; all images
  are modelled in RGBA form (the pipeline converts both source and logo with
  convert("RGBA") before any pixel work, so every buffer the claims touch is
  4-channel).  Channel values are Nat, meaningful in 0..255.
* Pillow primitives called by the code are embedded from Pillow C sources
  where a claim depends on their arithmetic (Image.paste from Paste.c,
  Image.alpha_composite from AlphaComposite.c, ImageEnhance.Brightness from
  Blend.c).  The two resampling kernels (Image.resize with LANCZOS and
  Image.rotate with expand/BICUBIC) are third-party numeric kernels outside
  this repository; they are passed as function parameters (resample, rot) so
  every theorem quantifies over them; resize hands the kernel the exact
  target dimensions computed by the repository code.
* Python float literals 0.8 and 0.20 are embedded as the exact rationals
  they denote in the source text.  For every buffer dimension d that can
  occur, CPython evaluates int(d * 0.8) to floor(4*d/5) and
  int(d * 0.2) to floor(d/5): the float products land within half an ulp of
  the exact rational, whose distance to the nearest integer on the wrong
  side is at least 1/5, so truncation agrees with the exact floor.
* Fallible code is embedded in Option: Python range() with step 0 raises
  ValueError and resize after a division by zero raises; both are caught by
  the generic handler of the endpoint, which maps them to HTTP 500.
* The HTTP layer is embedded as a pure function of an environment (query
  parameter, logo file state, download outcome) to a response value.
-/

namespace Getmark

/-- One RGBA pixel; channel values are 8-bit samples held in Nat. -/
structure Pix where
  r : ℕ
  g : ℕ
  b : ℕ
  a : ℕ
deriving DecidableEq

/-- An RGBA image buffer: dimensions plus a total pixel function (only
coordinates below the dimensions are meaningful). -/
structure Image where
  width : ℕ
  height : ℕ
  pix : ℕ → ℕ → Pix

/-- The fully transparent pixel used by Image.new("RGBA", size, (0,0,0,0)). -/
def transparent : Pix := ⟨0, 0, 0, 0⟩

/-- Configuration constant WATERMARK_OPACITY = 0.8 (src/app.py line 11). -/
def WATERMARK_OPACITY : ℚ := 0.8

/-- Configuration constant ROTATION_ANGLE = 45 (src/app.py line 12); the
rotation itself is a Pillow kernel abstracted as the rot parameter. -/
def ROTATION_ANGLE : ℕ := 45

/-- Configuration constant WATERMARK_SCALE = 0.20 (src/app.py line 13). -/
def WATERMARK_SCALE : ℚ := 0.20

/-- SHIFTFORDIV255 from Pillow (approximate division by 255):
SHIFTFORDIV255(a) = (((a) >> 8) + a) >> 8. -/
def shiftForDiv255 (v : ℕ) : ℕ := (v / 256 + v) / 256

/-- Rounding division by 255 as Pillow composes it: SHIFTFORDIV255(v + 0x80).
Pillow uses this both in MULDIV255 of Paste.c and for the output alpha of
AlphaComposite.c. -/
def d255 (v : ℕ) : ℕ := shiftForDiv255 (v + 128)

/-- One channel of Image.paste with a mask (Paste.c BLEND):
out = MULDIV255(dest, 255 - mask) + MULDIV255(tile, mask). -/
def pasteChannel (dest tile m : ℕ) : ℕ := d255 (dest * (255 - m)) + d255 (tile * m)

/-- One pixel of Image.paste(tile, box, tile): an RGBA mask image uses its
alpha band as the mask, and every band of the destination is blended. -/
def pastePix (dest tile : Pix) : Pix :=
  ⟨pasteChannel dest.r tile.r tile.a,
   pasteChannel dest.g tile.g tile.a,
   pasteChannel dest.b tile.b tile.a,
   pasteChannel dest.a tile.a tile.a⟩

/-- Image.paste(tile, (px, py), tile) on an RGBA destination.  Pillow accepts
negative box origins and clips the pasted region to the destination. -/
def pilPaste (dest tile : Image) (px py : ℤ) : Image :=
  { dest with pix := fun i j =>
      let ti : ℤ := (i : ℤ) - px
      let tj : ℤ := (j : ℤ) - py
      if 0 ≤ ti ∧ ti < (tile.width : ℤ) ∧ 0 ≤ tj ∧ tj < (tile.height : ℤ) ∧
         i < dest.width ∧ j < dest.height then
        pastePix (dest.pix i j) (tile.pix ti.toNat tj.toNat)
      else dest.pix i j }

/-- One pixel of Image.alpha_composite (AlphaComposite.c, PRECISION_BITS = 7):
dst is the background pixel, src the foreground pixel. -/
def compositePix (dst src : Pix) : Pix :=
  if src.a = 0 then dst
  else
    let blend := dst.a * (255 - src.a)
    let outa255 := src.a * 255 + blend
    let coef1 := src.a * 255 * 255 * 128 / outa255
    let coef2 := 255 * 128 - coef1
    { r := shiftForDiv255 (src.r * coef1 + dst.r * coef2 + 16384) / 128
      g := shiftForDiv255 (src.g * coef1 + dst.g * coef2 + 16384) / 128
      b := shiftForDiv255 (src.b * coef1 + dst.b * coef2 + 16384) / 128
      a := d255 outa255 }

/-- Image.alpha_composite(im1, im2): im1 is the background.  Pillow requires
equal sizes (the only call site composites a layer built with the base
size); the result has the background dimensions. -/
def alphaComposite (im1 im2 : Image) : Image :=
  ⟨im1.width, im1.height, fun x y => compositePix (im1.pix x y) (im2.pix x y)⟩

/-- ImageEnhance.Brightness(band).enhance(factor) on one 8-bit sample:
Image.blend(black, band, factor), i.e. Blend.c with in1 = 0.  For factor in
[0,1] the interpolation path truncates factor * v to an integer; outside
that range the extrapolation path also clips to 0..255. -/
def enhanceBrightness (factor : ℚ) (v : ℕ) : ℕ :=
  if 0 ≤ factor ∧ factor ≤ 1 then (⌊factor * v⌋).toNat
  else min 255 (⌊factor * v⌋).toNat

/-- Image.putalpha(band): replaces the alpha channel of the buffer in place,
keeping the color channels. -/
def putalpha (image : Image) (newAlpha : ℕ → ℕ → ℕ) : Image :=
  { image with pix := fun x y => { image.pix x y with a := newAlpha x y } }

/-- adjust_opacity (src/app.py lines 49-58).  The Python function returns its
argument object: when opacity < 1 it calls image.putalpha(...), mutating the
buffer of the caller, and returns that same object.  The embedding makes the
aliasing explicit by returning a pair (returned buffer, buffer the caller
holds after the call). -/
def adjust_opacity (image : Image) (opacity : ℚ) : Image × Image :=
  if 1 ≤ opacity then (image, image)
  else
    let mutated := putalpha image fun x y => enhanceBrightness opacity (image.pix x y).a
    (mutated, mutated)

/-- resize_proportional (src/app.py lines 60-66).  ratio = min of the two
independent ratios; new dimensions are int(original * ratio), handed to the
Pillow resampling kernel (resample, LANCZOS in the source), which produces a
buffer of exactly the requested dimensions.  A zero original dimension makes
the Python code raise ZeroDivisionError. -/
def resize_proportional (resample : Image → ℕ → ℕ → Image) (image : Image)
    (target_size : ℕ) : Option Image :=
  if image.width = 0 ∨ image.height = 0 then none
  else
    let ratio : ℚ := min ((target_size : ℚ) / image.width) ((target_size : ℚ) / image.height)
    let new_width : ℕ := ⌊(image.width : ℚ) * ratio⌋₊
    let new_height : ℕ := ⌊(image.height : ℚ) * ratio⌋₊
    some (resample image new_width new_height)

/-- Python range(start, stop, step) for a nonnegative step, via fuel; the
fuel (stop - start).toNat is enough whenever step ≥ 1. -/
def pyRangeFuel (step : ℕ) : ℕ → ℤ → ℤ → List ℤ
  | 0, _, _ => []
  | fuel + 1, start, stop =>
      if start < stop then start :: pyRangeFuel step fuel (start + step) stop else []

/-- Python range(start, stop, step) for step ≥ 1. -/
def pyRange (start stop : ℤ) (step : ℕ) : List ℤ :=
  pyRangeFuel step (stop - start).toNat start stop

/-- Tile spacing int(d * 0.8) (src/app.py lines 77-78): 20 percent overlap. -/
def spacingOf (d : ℕ) : ℕ := ⌊(d : ℚ) * (0.8 : ℚ)⌋₊

/-- Grid start offset -d // 2 (src/app.py lines 81-82), Python floor
division. -/
def offsetOf (d : ℕ) : ℤ := Int.fdiv (-(d : ℤ)) 2

/-- The grid positions (x, y) visited by the two nested loops of
create_tiled_pattern (src/app.py lines 85-86), in iteration order (y outer,
x inner). -/
def gridPositions (base tile : Image) : List (ℤ × ℤ) :=
  (pyRange (offsetOf tile.height) ((base.height : ℤ) + tile.height) (spacingOf tile.height)).flatMap
    fun y =>
      (pyRange (offsetOf tile.width) ((base.width : ℤ) + tile.width) (spacingOf tile.width)).map
        fun x => (x, y)

/-- The grid positions where the loop body actually pastes: the source guard
is pos_x < width and pos_y < height (src/app.py line 92); there is no lower
bound check. -/
def pastedPositions (base tile : Image) : List (ℤ × ℤ) :=
  (gridPositions base tile).filter fun p =>
    decide (p.1 < (base.width : ℤ) ∧ p.2 < (base.height : ℤ))

/-- create_tiled_pattern (src/app.py lines 68-97).  A spacing of 0 makes
Python range() raise ValueError (step must not be zero): when spacing_y = 0
the outer range raises at once, and when spacing_y ≥ 1 the tile height is
at least 2, the outer range is nonempty and the inner range raises on its
first construction, so the operation fails exactly when either spacing is
zero.  Otherwise the tile is pasted, in loop order, at every guarded grid
position onto a transparent layer of the base size, and the layer is
alpha-composited over the base. -/
def create_tiled_pattern (base_image watermark_tile : Image) : Option Image :=
  let watermark_layer : Image :=
    ⟨base_image.width, base_image.height, fun _ _ => transparent⟩
  let spacing_x := spacingOf watermark_tile.width
  let spacing_y := spacingOf watermark_tile.height
  if spacing_x = 0 ∨ spacing_y = 0 then none
  else
    let layer := (pastedPositions base_image watermark_tile).foldl
      (fun acc p => pilPaste acc watermark_tile p.1 p.2) watermark_layer
    some (alphaComposite base_image layer)

/-- apply_diagonal_watermark (src/app.py lines 99-126).  rot abstracts
watermark.rotate(ROTATION_ANGLE, expand=True, resample=BICUBIC) and resample
abstracts the resize kernel; both images are already in RGBA form in the
model, so the two convert("RGBA") calls are identities.  Any failure in a
step propagates (is re-raised). -/
def apply_diagonal_watermark (rot : Image → Image) (resample : Image → ℕ → ℕ → Image)
    (logo image : Image) : Option Image :=
  let main_image := image
  let watermark := (adjust_opacity logo WATERMARK_OPACITY).1
  let base_size := min main_image.width main_image.height
  let watermark_size : ℕ := ⌊(base_size : ℚ) * WATERMARK_SCALE⌋₊
  match resize_proportional resample watermark watermark_size with
  | none => none
  | some resized => create_tiled_pattern main_image (rot resized)

/-- Outcome of download_image (src/app.py lines 39-47): requests.get plus
raise_for_status raise requests.RequestException on network error, non-2xx
status or timeout; Image.open raises a non-request exception when the bytes
do not decode. -/
inductive DownloadOutcome where
  | netError
  | notAnImage
  | ok (img : Image)

/-- Request environment: the url query parameter, the state of the logo file
on disk (existence and decodability, plus its decoded buffer when it
decodes), and the outcome the download would have. -/
structure Env where
  urlParam : Option String
  logoFileExists : Bool
  logoDecodes : Bool
  logoImage : Image
  download : DownloadOutcome

/-- check_logo (src/app.py lines 24-37): the file must exist and
Image.open(...).verify() must succeed. -/
def check_logo (env : Env) : Bool := env.logoFileExists && env.logoDecodes

/-- Body of an HTTP response: a JSON error object or encoded image bytes. -/
inductive Payload where
  | error (msg : String)
  | png (img : Image)
  | jpeg (quality : ℕ) (img : Image)

/-- An HTTP response: status code, content type of an image response, body. -/
structure HttpResponse where
  status : ℕ
  mimetype : Option String
  payload : Payload

/-- Image.convert("RGB") before JPEG encoding: drops the alpha channel, so
the buffer becomes fully opaque with unchanged colors. -/
def convertRGB (img : Image) : Image :=
  { img with pix := fun x y => { img.pix x y with a := 255 } }

/-- Python url.lower(), modelled on the character list of the string. -/
def lowercase (s : String) : List Char := s.data.map Char.toLower

/-- image_url.lower().endswith((".png", ".gif", ".bmp", ".tiff"))
(src/app.py line 153). -/
def hasTransparentExt (url : String) : Bool :=
  List.isSuffixOf ".png".data (lowercase url) ||
  List.isSuffixOf ".gif".data (lowercase url) ||
  List.isSuffixOf ".bmp".data (lowercase url) ||
  List.isSuffixOf ".tiff".data (lowercase url)

/-- watermark_image endpoint (src/app.py lines 128-176).  Missing or empty
url parameter (Python falsy test) gives 400; a failing check_logo gives 500;
requests.RequestException from the download gives 400; any other exception
(undecodable download, any pipeline failure) gives 500; on success the
result is PNG-encoded per url extension, otherwise flattened with
convert("RGB") and JPEG-encoded at quality 95. -/
def watermark_image (rot : Image → Image) (resample : Image → ℕ → ℕ → Image)
    (env : Env) : HttpResponse :=
  match env.urlParam with
  | none => ⟨400, none, .error "Parametro url e obrigatorio"⟩
  | some url =>
    if url = "" then ⟨400, none, .error "Parametro url e obrigatorio"⟩
    else if check_logo env = false then ⟨500, none, .error "Logo nao encontrada"⟩
    else
      match env.download with
      | .netError => ⟨400, none, .error "Nao foi possivel baixar a imagem"⟩
      | .notAnImage => ⟨500, none, .error "Erro ao processar imagem"⟩
      | .ok original =>
        match apply_diagonal_watermark rot resample env.logoImage original with
        | none => ⟨500, none, .error "Erro ao processar imagem"⟩
        | some wm =>
          if hasTransparentExt url then ⟨200, some "image/png", .png wm⟩
          else ⟨200, some "image/jpeg", .jpeg 95 (convertRGB wm)⟩

/-- Payload of the health endpoint (src/app.py lines 178-181). -/
structure HealthPayload where
  status : String
  logo_exists : Bool

/-- health_check endpoint: reports file existence only, never decodability. -/
def health_check (env : Env) : HealthPayload :=
  ⟨"healthy", env.logoFileExists⟩

/-- Stand-in for the Pillow rotation kernel in concrete runs (the theorems
quantify over the kernel; any function of the right type instantiates it). -/
def rotStub : Image → Image := id

/-- Stand-in for the Pillow resampling kernel in concrete runs: returns a
buffer of exactly the requested dimensions, as Image.resize does. -/
def resampleStub : Image → ℕ → ℕ → Image :=
  fun im w h => ⟨w, h, fun x y => im.pix x y⟩

/-- Concrete 20 by 20 logo buffer used in concrete runs. -/
def logoSample : Image := ⟨20, 20, fun _ _ => ⟨255, 0, 0, 255⟩⟩

/-- Concrete 100 by 80 source image used in concrete runs. -/
def srcSample : Image := ⟨100, 80, fun _ _ => ⟨10, 20, 30, 255⟩⟩

/-- Concrete 1 by 1 fully opaque buffer used in opacity claims. -/
def logoOnePx : Image := ⟨1, 1, fun _ _ => ⟨10, 20, 30, 255⟩⟩

/-- Concrete 1 by 100 image (degenerate aspect ratio) for resize claims. -/
def tallSample : Image := ⟨1, 100, fun _ _ => ⟨0, 0, 0, 255⟩⟩

/-- Concrete 200 by 100 image from the resize example of the spec. -/
def wideSample : Image := ⟨200, 100, fun _ _ => ⟨0, 0, 0, 255⟩⟩

/-- Concrete 8 by 8 opaque base canvas for tiling claims. -/
def baseSample8 : Image := ⟨8, 8, fun _ _ => ⟨0, 0, 0, 255⟩⟩

/-- Concrete 4 by 4 half-transparent tile for tiling claims. -/
def tileSample4 : Image := ⟨4, 4, fun _ _ => ⟨255, 255, 255, 128⟩⟩

/-- Concrete 1 by 4 tile whose width makes the tile spacing zero. -/
def tileSample1 : Image := ⟨1, 4, fun _ _ => ⟨255, 255, 255, 128⟩⟩

/-- Concrete 1 by 1 fully opaque base pixel for compositing claims. -/
def baseOpaque : Image := ⟨1, 1, fun _ _ => ⟨5, 5, 5, 255⟩⟩

/-- Concrete 1 by 1 half-transparent layer pixel for compositing claims. -/
def layerHalf : Image := ⟨1, 1, fun _ _ => ⟨200, 200, 200, 128⟩⟩

/-- Environment with a present but undecodable logo file and a good request. -/
def envBadLogo : Env :=
  ⟨some "http://host/photo.jpg", true, false, logoSample, .ok srcSample⟩

/-- Environment for a fully successful request with an uppercase PNG url. -/
def envOkPng : Env :=
  ⟨some "http://host/photo.PNG", true, true, logoSample, .ok srcSample⟩

/-- Tile spacing int(d * 0.8) equals the integer division d * 4 / 5. -/
theorem spacingOf_eq (d : ℕ) : spacingOf d = d * 4 / 5 := by
  unfold spacingOf
  have h : (d : ℚ) * (0.8 : ℚ) = ((d * 4 : ℕ) : ℚ) / ((5 : ℕ) : ℚ) := by
    push_cast
    norm_num
    ring
  rw [h, Nat.floor_div_nat, Nat.floor_natCast]

/-- Watermark target size int(base_size * 0.20) equals base_size / 5. -/
theorem watermarkSize_eq (b : ℕ) : ⌊(b : ℚ) * WATERMARK_SCALE⌋₊ = b / 5 := by
  unfold WATERMARK_SCALE
  have h : (b : ℚ) * (0.20 : ℚ) = ((b : ℕ) : ℚ) / ((5 : ℕ) : ℚ) := by
    push_cast
    norm_num
    ring
  rw [h, Nat.floor_div_nat, Nat.floor_natCast]

/-- The Pillow rounding division by 255 is monotone. -/
theorem d255_mono {v w : ℕ} (h : v ≤ w) : d255 v ≤ d255 w := by
  unfold d255 shiftForDiv255
  have h1 : v + 128 ≤ w + 128 := by omega
  exact Nat.div_le_div_right (Nat.add_le_add (Nat.div_le_div_right h1) h1)

/-- The Pillow rounding division by 255 is exact on multiples of 255. -/
theorem d255_mul255 {k : ℕ} (hk : k ≤ 255) : d255 (255 * k) = k := by
  unfold d255 shiftForDiv255
  rcases le_or_lt k 128 with h | h
  · have h1 : (255 * k + 128) / 256 = k := by
      apply Nat.div_eq_of_lt_le <;> omega
    rw [h1]
    apply Nat.div_eq_of_lt_le <;> omega
  · have h1 : (255 * k + 128) / 256 = k - 1 := by
      apply Nat.div_eq_of_lt_le <;> omega
    rw [h1]
    apply Nat.div_eq_of_lt_le <;> omega

/-- Membership in the fuel-based Python range, for any sufficient fuel. -/
theorem mem_pyRangeFuel {step : ℕ} (hstep : 1 ≤ step) (a stop : ℤ) :
    ∀ (fuel : ℕ) (start : ℤ), (stop - start).toNat ≤ fuel →
      (a ∈ pyRangeFuel step fuel start stop ↔ ∃ i : ℕ, a = start + i * step ∧ a < stop) := by
  intro fuel
  induction fuel with
  | zero =>
    intro start h
    simp only [pyRangeFuel, List.not_mem_nil, false_iff]
    rintro ⟨i, rfl, hlt⟩
    have hnn : 0 ≤ (i : ℤ) * step := by positivity
    omega
  | succ f ih =>
    intro start h
    simp only [pyRangeFuel]
    split
    · rename_i hlt
      rw [List.mem_cons, ih (start + step) (by omega)]
      constructor
      · rintro (rfl | ⟨i, rfl, hi⟩)
        · exact ⟨0, by simp, hlt⟩
        · exact ⟨i + 1, by push_cast; ring, hi⟩
      · rintro ⟨i, rfl, hi⟩
        cases i with
        | zero => left; simp
        | succ j =>
          right
          exact ⟨j, by push_cast; ring, hi⟩
    · rename_i hge
      simp only [List.not_mem_nil, false_iff]
      rintro ⟨i, rfl, hlt⟩
      have hnn : 0 ≤ (i : ℤ) * step := by positivity
      omega

/-- Membership in the Python range, for a positive step. -/
theorem mem_pyRange {start stop : ℤ} {step : ℕ} (hstep : 1 ≤ step) (a : ℤ) :
    a ∈ pyRange start stop step ↔ ∃ i : ℕ, a = start + i * step ∧ a < stop :=
  mem_pyRangeFuel hstep a stop _ start le_rfl

/-- The min of the two independent ratios is the ratio of the larger side. -/
theorem min_ratio_eq (w h t : ℕ) (hw : w ≠ 0) (hh : h ≠ 0) :
    min ((t : ℚ) / w) ((t : ℚ) / h) = (t : ℚ) / ((max w h : ℕ) : ℚ) := by
  have hwq : (0 : ℚ) < w := by exact_mod_cast Nat.pos_of_ne_zero hw
  have hhq : (0 : ℚ) < h := by exact_mod_cast Nat.pos_of_ne_zero hh
  have htq : (0 : ℚ) ≤ t := by positivity
  rcases le_total w h with hle | hle
  · rw [max_eq_right hle, min_eq_right]
    exact div_le_div_of_nonneg_left htq hwq (by exact_mod_cast hle)
  · rw [max_eq_left hle, min_eq_left]
    exact div_le_div_of_nonneg_left htq hhq (by exact_mod_cast hle)

/-- The floored product side * min-ratio is an integer division. -/
theorem floor_mul_min_ratio (w h t : ℕ) (hw : w ≠ 0) (hh : h ≠ 0) :
    ⌊(w : ℚ) * min ((t : ℚ) / w) ((t : ℚ) / h)⌋₊ = w * t / max w h := by
  rw [min_ratio_eq w h t hw hh]
  have h2 : (w : ℚ) * ((t : ℚ) / ((max w h : ℕ) : ℚ)) =
      ((w * t : ℕ) : ℚ) / ((max w h : ℕ) : ℚ) := by
    push_cast
    ring
  rw [h2, Nat.floor_div_nat, Nat.floor_natCast]

/-- resize_proportional on a nondegenerate image: the kernel receives the
dimensions side * target / max side, i.e. int(side * ratio). -/
theorem resize_eq (resample : Image → ℕ → ℕ → Image) (image : Image) (t : ℕ)
    (hw : image.width ≠ 0) (hh : image.height ≠ 0) :
    resize_proportional resample image t =
      some (resample image (image.width * t / max image.width image.height)
        (image.height * t / max image.width image.height)) := by
  unfold resize_proportional
  rw [if_neg (by simp [hw, hh])]
  dsimp only
  have hback : ⌊(image.height : ℚ) *
      min ((t : ℚ) / image.width) ((t : ℚ) / image.height)⌋₊ =
      image.height * t / max image.width image.height := by
    rw [min_comm]
    rw [floor_mul_min_ratio image.height image.width t hh hw, max_comm]
  rw [floor_mul_min_ratio image.width image.height t hw hh, hback]

/-- Each resized dimension fits in the target bounding box. -/
theorem side_mul_div_max_le (w h t : ℕ) (hw : w ≠ 0) :
    w * t / max w h ≤ t := by
  have h1 : w * t ≤ max w h * t := Nat.mul_le_mul_right t (le_max_left w h)
  have h2 : max w h ≠ 0 := by
    rcases max_choice w h with hc | hc <;> omega
  calc w * t / max w h ≤ max w h * t / max w h := Nat.div_le_div_right h1
    _ = t := by rw [Nat.mul_div_cancel_left t (Nat.pos_of_ne_zero h2)]

/-- adjust_opacity never changes the buffer dimensions. -/
theorem adjust_opacity_dims (img : Image) (op : ℚ) :
    (adjust_opacity img op).1.width = img.width ∧
    (adjust_opacity img op).1.height = img.height := by
  unfold adjust_opacity putalpha
  split <;> exact ⟨rfl, rfl⟩

/-- adjust_opacity in the mutating branch. -/
theorem adjust_opacity_lt (img : Image) (op : ℚ) (h : op < 1) :
    adjust_opacity img op =
      (putalpha img fun x y => enhanceBrightness op (img.pix x y).a,
       putalpha img fun x y => enhanceBrightness op (img.pix x y).a) := by
  unfold adjust_opacity
  rw [if_neg (not_le.mpr h)]

/-- adjust_opacity in the no-op branch. -/
theorem adjust_opacity_ge (img : Image) (op : ℚ) (h : 1 ≤ op) :
    adjust_opacity img op = (img, img) := by
  unfold adjust_opacity
  rw [if_pos h]

/-- The brightness enhancement at the source opacity 0.8 maps 255 to 204. -/
theorem enhance08_255 : enhanceBrightness WATERMARK_OPACITY 255 = 204 := by
  unfold enhanceBrightness WATERMARK_OPACITY
  rw [if_pos (by constructor <;> norm_num)]
  norm_num
  decide

/-- create_tiled_pattern succeeds when both spacings are positive. -/
theorem create_tiled_isSome (base tile : Image)
    (hsx : spacingOf tile.width ≠ 0) (hsy : spacingOf tile.height ≠ 0) :
    (create_tiled_pattern base tile).isSome = true := by
  unfold create_tiled_pattern
  rw [if_neg (by simp [hsx, hsy])]
  rfl

/-- create_tiled_pattern fails when either spacing is zero. -/
theorem create_tiled_none (base tile : Image)
    (h : spacingOf tile.width = 0 ∨ spacingOf tile.height = 0) :
    create_tiled_pattern base tile = none := by
  unfold create_tiled_pattern
  rw [if_pos h]

/-- A successful create_tiled_pattern keeps the base dimensions. -/
theorem create_tiled_dims (base tile out : Image)
    (h : create_tiled_pattern base tile = some out) :
    out.width = base.width ∧ out.height = base.height := by
  unfold create_tiled_pattern at h
  dsimp only at h
  split at h
  · exact absurd h (by simp)
  · cases h
    exact ⟨rfl, rfl⟩

/-- apply_diagonal_watermark on a nondegenerate logo, unfolded through the
opacity, sizing and resize steps. -/
theorem apply_unfold (rot : Image → Image) (resample : Image → ℕ → ℕ → Image)
    (logo image : Image) (hlw : logo.width ≠ 0) (hlh : logo.height ≠ 0) :
    apply_diagonal_watermark rot resample logo image =
      create_tiled_pattern image (rot (resample (adjust_opacity logo WATERMARK_OPACITY).1
        (logo.width * (min image.width image.height / 5) / max logo.width logo.height)
        (logo.height * (min image.width image.height / 5) / max logo.width logo.height))) := by
  have hd := adjust_opacity_dims logo WATERMARK_OPACITY
  unfold apply_diagonal_watermark
  dsimp only
  rw [watermarkSize_eq]
  rw [resize_eq resample _ _ (by rw [hd.1]; exact hlw) (by rw [hd.2]; exact hlh)]
  rw [hd.1, hd.2]

/-- The concrete sample pipeline run succeeds. -/
theorem pipelineSample_isSome :
    (apply_diagonal_watermark rotStub resampleStub logoSample srcSample).isSome = true := by
  rw [apply_unfold rotStub resampleStub logoSample srcSample (by decide) (by decide)]
  apply create_tiled_isSome
  · rw [spacingOf_eq]
    decide
  · rw [spacingOf_eq]
    decide

/-- C1: for every source image the watermark pipeline accepts (every run of
apply_diagonal_watermark that returns a buffer), the output pixel width and
height equal the source pixel width and height exactly, whatever the rotate
and resample kernels produce. -/
theorem C1_output_dims_eq_input_dims (rot : Image → Image)
    (resample : Image → ℕ → ℕ → Image) (logo image out : Image)
    (h : apply_diagonal_watermark rot resample logo image = some out) :
    out.width = image.width ∧ out.height = image.height := by
  unfold apply_diagonal_watermark at h
  dsimp only at h
  rcases hres : resize_proportional resample (adjust_opacity logo WATERMARK_OPACITY).1
      ⌊((min image.width image.height : ℕ) : ℚ) * WATERMARK_SCALE⌋₊ with _ | resized
  · simp only [hres] at h
    exact Option.noConfusion h
  · simp only [hres] at h
    exact create_tiled_dims image (rot resized) out h

/-- C1 witness: a concrete successful run on the 100 by 80 sample returns a
buffer of dimensions 100 by 80. -/
theorem C1_output_dims_eq_input_dims_witness :
    ((apply_diagonal_watermark rotStub resampleStub logoSample srcSample).get
        pipelineSample_isSome).width = 100 ∧
    ((apply_diagonal_watermark rotStub resampleStub logoSample srcSample).get
        pipelineSample_isSome).height = 80 :=
  C1_output_dims_eq_input_dims rotStub resampleStub logoSample srcSample _
    (Option.some_get pipelineSample_isSome).symm

/-- C9: a tile with either side equal to 1 pixel makes the computed spacing
int(side * 0.8) zero, so the grid iteration is a range with step 0 and
create_tiled_pattern fails instead of producing a canvas; with both sides at
least 2 both spacings are positive and the tiling succeeds. -/
theorem C9_tiling_fails_on_unit_tile (base tile : Image) :
    ((tile.width = 1 ∨ tile.height = 1) → create_tiled_pattern base tile = none) ∧
    (2 ≤ tile.width → 2 ≤ tile.height → (create_tiled_pattern base tile).isSome = true) := by
  constructor
  · intro h
    apply create_tiled_none
    rcases h with h | h
    · left
      rw [spacingOf_eq, h]
    · right
      rw [spacingOf_eq, h]
  · intro hw hh
    apply create_tiled_isSome
    · have h1 := spacingOf_eq tile.width
      omega
    · have h1 := spacingOf_eq tile.height
      omega

/-- C2 (amended): with positive spacings, the Tile Compositor pastes at a
grid position (x, y) iff x < W and y < H: the source guard has no lower
bound, so grid origins left of or above the canvas (negative coordinates)
are pasted as well; culling happens only past the right and bottom edges. -/
theorem C2_paste_rule_right_bottom_only (base tile : Image)
    (hsx : spacingOf tile.width ≠ 0) (hsy : spacingOf tile.height ≠ 0) (x y : ℤ) :
    (x, y) ∈ pastedPositions base tile ↔
      ((∃ i : ℕ, x = offsetOf tile.width + i * spacingOf tile.width) ∧
       (∃ j : ℕ, y = offsetOf tile.height + j * spacingOf tile.height) ∧
       x < (base.width : ℤ) ∧ y < (base.height : ℤ)) := by
  have hsx1 : 1 ≤ spacingOf tile.width := Nat.one_le_iff_ne_zero.mpr hsx
  have hsy1 : 1 ≤ spacingOf tile.height := Nat.one_le_iff_ne_zero.mpr hsy
  unfold pastedPositions gridPositions
  rw [List.mem_filter]
  constructor
  · rintro ⟨hmem, hcond⟩
    rw [List.mem_flatMap] at hmem
    obtain ⟨y1, hy1, hxmem⟩ := hmem
    rw [List.mem_map] at hxmem
    obtain ⟨x1, hx1, heq⟩ := hxmem
    rw [Prod.ext_iff] at heq
    obtain ⟨he1, he2⟩ := heq
    dsimp only at he1 he2
    subst he1
    subst he2
    rw [mem_pyRange hsx1] at hx1
    rw [mem_pyRange hsy1] at hy1
    obtain ⟨i, hi, hilt⟩ := hx1
    obtain ⟨j, hj, hjlt⟩ := hy1
    have hc := of_decide_eq_true hcond
    exact ⟨⟨i, hi⟩, ⟨j, hj⟩, hc.1, hc.2⟩
  · rintro ⟨⟨i, hi⟩, ⟨j, hj⟩, hxW, hyH⟩
    refine ⟨?_, decide_eq_true ⟨hxW, hyH⟩⟩
    rw [List.mem_flatMap]
    refine ⟨y, ?_, ?_⟩
    · rw [mem_pyRange hsy1]
      exact ⟨j, hj, by omega⟩
    · rw [List.mem_map]
      refine ⟨x, ?_, rfl⟩
      rw [mem_pyRange hsx1]
      exact ⟨i, hi, by omega⟩

/-- C2 witness: on the 8 by 8 canvas with the 4 by 4 tile (spacing 3, grid
offset -2) the rule confirms the grid point (-2, 1) is pasted. -/
theorem C2_paste_rule_right_bottom_only_witness :
    ((-2 : ℤ), (1 : ℤ)) ∈ pastedPositions baseSample8 tileSample4 :=
  (C2_paste_rule_right_bottom_only baseSample8 tileSample4
      (by rw [spacingOf_eq]; decide) (by rw [spacingOf_eq]; decide) (-2) 1).mpr
    ⟨⟨0, by rw [spacingOf_eq]; decide⟩, ⟨1, by rw [spacingOf_eq]; decide⟩,
     by decide, by decide⟩

/-- C2 counterexample: on the 8 by 8 canvas with the 4 by 4 tile the grid
origin (-2, -2) lies outside the canvas (negative coordinates), so
origin-in-bounds culling would skip it, yet the loop pastes there. -/
theorem C2_counterexample :
    (((-2 : ℤ), (-2 : ℤ)) ∈ pastedPositions baseSample8 tileSample4) ∧
      ¬(0 ≤ (-2 : ℤ)) := by
  constructor
  · simp only [pastedPositions, gridPositions, spacingOf_eq]
    decide
  · decide

/-- C9 witness: tiling fails on a 1 by 4 tile and succeeds on a 4 by 4 tile
over the 8 by 8 sample canvas. -/
theorem C9_tiling_fails_on_unit_tile_witness :
    create_tiled_pattern baseSample8 tileSample1 = none ∧
    (create_tiled_pattern baseSample8 tileSample4).isSome = true :=
  ⟨(C9_tiling_fails_on_unit_tile baseSample8 tileSample1).1 (Or.inl rfl),
   (C9_tiling_fails_on_unit_tile baseSample8 tileSample4).2 (by decide) (by decide)⟩

/-- C3 (amended): when the opacity factor is below 1 the Opacity Adjuster
does not produce a fresh copy: the buffer the caller holds after the call is
the very buffer returned, with its alpha channel overwritten in place by the
scaled values (the pipeline reloads the logo from disk on each request, so
the mutation does not accumulate across requests). -/
theorem C3_adjust_opacity_mutates_in_place (img : Image) (op : ℚ) :
    (adjust_opacity img op).2 = (adjust_opacity img op).1 ∧
    (op < 1 → ∀ x y, (adjust_opacity img op).2.pix x y =
      { img.pix x y with a := enhanceBrightness op (img.pix x y).a }) := by
  constructor
  · unfold adjust_opacity
    split <;> rfl
  · intro h x y
    rw [adjust_opacity_lt img op h]
    rfl

/-- C3 witness: on the opaque one-pixel sample at factor 4/5, the caller
buffer after the call aliases the returned buffer and holds the scaled
alpha. -/
theorem C3_adjust_opacity_mutates_in_place_witness :
    (adjust_opacity logoOnePx (mkRat 4 5)).2 = (adjust_opacity logoOnePx (mkRat 4 5)).1 ∧
    ((adjust_opacity logoOnePx (mkRat 4 5)).2.pix 0 0).a =
      enhanceBrightness (mkRat 4 5) 255 :=
  ⟨(C3_adjust_opacity_mutates_in_place logoOnePx (mkRat 4 5)).1,
   congrArg Pix.a
     ((C3_adjust_opacity_mutates_in_place logoOnePx (mkRat 4 5)).2 (by decide) 0 0)⟩

/-- C3 counterexample: with the configured opacity 0.8 the caller buffer
after the call differs from the buffer before the call (alpha 255 becomes
204), so adjust_opacity does alter the logo buffer in place. -/
theorem C3_counterexample :
    (adjust_opacity logoOnePx WATERMARK_OPACITY).2 ≠ logoOnePx := by
  intro h
  have h2 := congrArg (fun im => (im.pix 0 0).a) h
  rw [adjust_opacity_lt logoOnePx WATERMARK_OPACITY (by norm_num [WATERMARK_OPACITY])] at h2
  dsimp only [putalpha, logoOnePx] at h2
  rw [enhance08_255] at h2
  exact absurd h2 (by decide)

/-- C4: the Opacity Adjuster keeps dimensions; with factor at least 1 it
returns the input unchanged; with a factor in [0,1) it keeps every color
channel and maps every alpha a to the truncated product floor(factor * a);
with factor 0 the resulting alpha channel is entirely zero. -/
theorem C4_adjust_opacity_alpha_scaling (img : Image) (op : ℚ) :
    ((adjust_opacity img op).1.width = img.width ∧
     (adjust_opacity img op).1.height = img.height) ∧
    (1 ≤ op → (adjust_opacity img op).1 = img) ∧
    (0 ≤ op → op < 1 → ∀ x y,
      ((adjust_opacity img op).1.pix x y).r = (img.pix x y).r ∧
      ((adjust_opacity img op).1.pix x y).g = (img.pix x y).g ∧
      ((adjust_opacity img op).1.pix x y).b = (img.pix x y).b ∧
      ((adjust_opacity img op).1.pix x y).a = ⌊op * ((img.pix x y).a : ℚ)⌋₊) ∧
    (op = 0 → ∀ x y, ((adjust_opacity img op).1.pix x y).a = 0) := by
  refine ⟨adjust_opacity_dims img op, ?_, ?_, ?_⟩
  · intro h
    rw [adjust_opacity_ge img op h]
  · intro h0 h1 x y
    rw [adjust_opacity_lt img op h1]
    refine ⟨rfl, rfl, rfl, ?_⟩
    dsimp only [putalpha, enhanceBrightness]
    rw [if_pos ⟨h0, le_of_lt h1⟩]
    exact Int.floor_toNat _
  · intro h0 x y
    subst h0
    rw [adjust_opacity_lt img 0 (by norm_num)]
    dsimp only [putalpha, enhanceBrightness]
    rw [if_pos ⟨le_refl (0 : ℚ), by norm_num⟩]
    simp

/-- Floor evaluation used by the C4 witness. -/
theorem halfFloor255 : ⌊(mkRat 1 2) * ((255 : ℕ) : ℚ)⌋₊ = 127 := by
  rw [Rat.mkRat_eq_div]
  norm_num
  rw [show ((255 : ℚ) / 2) = ((255 : ℕ) : ℚ) / ((2 : ℕ) : ℚ) by norm_num]
  rw [Nat.floor_div_nat, Nat.floor_natCast]

/-- C4 witness: at factor 1/2 the opaque one-pixel sample keeps its red
channel and gets alpha 127; at factor 1 the buffer is returned unchanged. -/
theorem C4_adjust_opacity_alpha_scaling_witness :
    ((adjust_opacity logoOnePx (mkRat 1 2)).1.pix 0 0).a = 127 ∧
    ((adjust_opacity logoOnePx (mkRat 1 2)).1.pix 0 0).r = 10 ∧
    (adjust_opacity logoOnePx 1).1 = logoOnePx :=
  ⟨(((C4_adjust_opacity_alpha_scaling logoOnePx (mkRat 1 2)).2.2.1
      (by decide) (by decide) 0 0).2.2.2).trans halfFloor255,
   ((C4_adjust_opacity_alpha_scaling logoOnePx (mkRat 1 2)).2.2.1
      (by decide) (by decide) 0 0).1,
   (C4_adjust_opacity_alpha_scaling logoOnePx 1).2.1 le_rfl⟩

/-- C5 (amended): for a nondegenerate image the Proportional Resizer
requests exactly floor(side * ratio) with ratio the smaller of the two
independent target ratios, and both requested dimensions fit the target
bounding box; the code imposes no 1-pixel minimum. -/
theorem C5_resize_dims (resample : Image → ℕ → ℕ → Image)
    (hres : ∀ im w h, (resample im w h).width = w ∧ (resample im w h).height = h)
    (image : Image) (target_size : ℕ)
    (hw : image.width ≠ 0) (hh : image.height ≠ 0) :
    (resize_proportional resample image target_size).map Image.width =
      some (image.width * target_size / max image.width image.height) ∧
    (resize_proportional resample image target_size).map Image.height =
      some (image.height * target_size / max image.width image.height) ∧
    image.width * target_size / max image.width image.height ≤ target_size ∧
    image.height * target_size / max image.width image.height ≤ target_size := by
  rw [resize_eq resample image target_size hw hh]
  refine ⟨?_, ?_, side_mul_div_max_le _ _ _ hw, ?_⟩
  · rw [Option.map_some', (hres image _ _).1]
  · rw [Option.map_some', (hres image _ _).2]
  · have h1 := side_mul_div_max_le image.height image.width target_size hh
    rw [max_comm image.height image.width] at h1
    exact h1

/-- C5 counterexample: resizing the 1 by 100 image with target 50 requests
width floor(1 * 1/2) = 0, refuting the claim that each output dimension is
at least 1 pixel. -/
theorem C5_counterexample :
    (resize_proportional resampleStub tallSample 50).map Image.width = some 0 := by
  rw [resize_eq resampleStub tallSample 50 (by decide) (by decide)]
  decide

/-- C5 witness: the 200 by 100 sample resized with target 50 yields 50 by
25, as in the example of the spec. -/
theorem C5_resize_dims_witness :
    (resize_proportional resampleStub wideSample 50).map Image.width = some 50 ∧
    (resize_proportional resampleStub wideSample 50).map Image.height = some 25 :=
  ⟨((C5_resize_dims resampleStub (fun _ _ _ => ⟨rfl, rfl⟩) wideSample 50
      (by decide) (by decide)).1).trans (congrArg some (by decide)),
   ((C5_resize_dims resampleStub (fun _ _ _ => ⟨rfl, rfl⟩) wideSample 50
      (by decide) (by decide)).2.1).trans (congrArg some (by decide))⟩

/-- One pixel of the Pillow composite: the output alpha is at least the
background alpha, and an opaque background stays opaque. -/
theorem compositePix_alpha (dst src : Pix) (hd : dst.a ≤ 255) (hs : src.a ≤ 255) :
    dst.a ≤ (compositePix dst src).a ∧
    (dst.a = 255 → (compositePix dst src).a = 255) := by
  unfold compositePix
  by_cases h0 : src.a = 0
  · rw [if_pos h0]
    exact ⟨le_refl _, fun h => h⟩
  · rw [if_neg h0]
    dsimp only
    have h255 : src.a + (255 - src.a) = 255 := by omega
    have hlow : 255 * dst.a ≤ src.a * 255 + dst.a * (255 - src.a) := by
      have h1 : dst.a * src.a ≤ src.a * 255 :=
        (mul_comm dst.a src.a).le.trans (Nat.mul_le_mul le_rfl hd)
      calc 255 * dst.a = dst.a * 255 := mul_comm _ _
        _ = dst.a * (src.a + (255 - src.a)) := by rw [h255]
        _ = dst.a * src.a + dst.a * (255 - src.a) := mul_add _ _ _
        _ ≤ src.a * 255 + dst.a * (255 - src.a) := add_le_add_right h1 _
    have hhigh : src.a * 255 + dst.a * (255 - src.a) ≤ 255 * 255 := by
      have h2 : dst.a * (255 - src.a) ≤ 255 * (255 - src.a) :=
        Nat.mul_le_mul hd le_rfl
      calc src.a * 255 + dst.a * (255 - src.a)
          ≤ src.a * 255 + 255 * (255 - src.a) := add_le_add_left h2 _
        _ = 255 * src.a + 255 * (255 - src.a) := by rw [mul_comm src.a 255]
        _ = 255 * (src.a + (255 - src.a)) := (mul_add _ _ _).symm
        _ = 255 * 255 := by rw [h255]
    constructor
    · calc dst.a = d255 (255 * dst.a) := (d255_mul255 hd).symm
        _ ≤ d255 (src.a * 255 + dst.a * (255 - src.a)) := d255_mono hlow
    · intro hda
      have heq : src.a * 255 + dst.a * (255 - src.a) = 255 * 255 := by
        apply le_antisymm hhigh
        calc 255 * 255 = 255 * dst.a := by rw [hda]
          _ ≤ _ := hlow
      rw [heq]
      exact d255_mul255 le_rfl

/-- C6: the final alpha_composite of the Tile Compositor never decreases
alpha: the output alpha at every pixel is at least the base alpha, and a
fully opaque base pixel yields a fully opaque output pixel. -/
theorem C6_composite_alpha_ge_base (base layer : Image) (x y : ℕ)
    (hb : (base.pix x y).a ≤ 255) (hl : (layer.pix x y).a ≤ 255) :
    (base.pix x y).a ≤ ((alphaComposite base layer).pix x y).a ∧
    ((base.pix x y).a = 255 → ((alphaComposite base layer).pix x y).a = 255) :=
  compositePix_alpha (base.pix x y) (layer.pix x y) hb hl

/-- C6 witness: compositing the half-transparent layer over the opaque base
pixel keeps it fully opaque. -/
theorem C6_composite_alpha_ge_base_witness :
    (baseOpaque.pix 0 0).a ≤ ((alphaComposite baseOpaque layerHalf).pix 0 0).a ∧
    ((alphaComposite baseOpaque layerHalf).pix 0 0).a = 255 :=
  ⟨(C6_composite_alpha_ge_base baseOpaque layerHalf 0 0 (by decide) (by decide)).1,
   (C6_composite_alpha_ge_base baseOpaque layerHalf 0 0 (by decide) (by decide)).2 rfl⟩

/-- C7: GET /watermark returns 400 exactly when the url parameter is absent
or blank, or when the logo check passed and the download raised a request
exception (network error, non-2xx, timeout); it returns 500 exactly when a
url was given and the logo file is absent or undecodable, or the downloaded
bytes do not decode, or the watermark pipeline fails; every 400 or 500
response carries an error payload. -/
theorem C7_status_codes (rot : Image → Image) (resample : Image → ℕ → ℕ → Image)
    (env : Env) :
    ((watermark_image rot resample env).status = 400 ↔
      (env.urlParam = none ∨ env.urlParam = some "" ∨
        ∃ u, env.urlParam = some u ∧ u ≠ "" ∧ check_logo env = true ∧
          env.download = DownloadOutcome.netError)) ∧
    ((watermark_image rot resample env).status = 500 ↔
      (∃ u, env.urlParam = some u ∧ u ≠ "" ∧
        (check_logo env = false ∨
          (check_logo env = true ∧
            (env.download = DownloadOutcome.notAnImage ∨
              ∃ img, env.download = DownloadOutcome.ok img ∧
                apply_diagonal_watermark rot resample env.logoImage img = none))))) ∧
    (((watermark_image rot resample env).status = 400 ∨
      (watermark_image rot resample env).status = 500) →
      ∃ msg, (watermark_image rot resample env).payload = Payload.error msg) := by
  obtain ⟨url, lfe, ldec, limg, dl⟩ := env
  cases url with
  | none => simp [watermark_image, check_logo]
  | some u =>
    by_cases hu : u = ""
    · subst hu
      simp [watermark_image, check_logo]
    · cases hb : (lfe && ldec) with
      | false => simp [watermark_image, check_logo, hu, hb]
      | true =>
        cases dl with
        | netError => simp [watermark_image, check_logo, hu, hb]
        | notAnImage => simp [watermark_image, check_logo, hu, hb]
        | ok img =>
          rcases happ : apply_diagonal_watermark rot resample limg img with _ | wm
          · simp [watermark_image, check_logo, hu, hb, happ]
          · by_cases hext : hasTransparentExt u
            · simp [watermark_image, check_logo, hu, hb, happ, hext]
            · simp [watermark_image, check_logo, hu, hb, happ, hext]

/-- C8: on a successful request the response is PNG with content type
image/png exactly when the lowercased url ends in .png, .gif, .bmp or
.tiff, and otherwise the buffer is flattened to opaque RGB and JPEG-encoded
at quality 95 with content type image/jpeg. -/
theorem C8_encoding_by_extension (rot : Image → Image)
    (resample : Image → ℕ → ℕ → Image) (env : Env) (u : String) (img wm : Image)
    (hu : env.urlParam = some u) (hne : u ≠ "") (hcl : check_logo env = true)
    (hdl : env.download = DownloadOutcome.ok img)
    (happ : apply_diagonal_watermark rot resample env.logoImage img = some wm) :
    (hasTransparentExt u = true →
      watermark_image rot resample env =
        ⟨200, some "image/png", Payload.png wm⟩) ∧
    (hasTransparentExt u = false →
      watermark_image rot resample env =
        ⟨200, some "image/jpeg", Payload.jpeg 95 (convertRGB wm)⟩) ∧
    (∀ x y, (convertRGB wm).pix x y = { wm.pix x y with a := 255 }) := by
  refine ⟨?_, ?_, fun x y => rfl⟩
  · intro hext
    simp [watermark_image, hu, hne, hcl, hdl, happ, hext]
  · intro hext
    simp [watermark_image, hu, hne, hcl, hdl, happ, hext]

/-- C8 witness: the sample request with an uppercase .PNG url returns the
composited buffer PNG-encoded with content type image/png. -/
theorem C8_encoding_by_extension_witness :
    watermark_image rotStub resampleStub envOkPng =
      ⟨200, some "image/png", Payload.png
        ((apply_diagonal_watermark rotStub resampleStub logoSample srcSample).get
          pipelineSample_isSome)⟩ :=
  (C8_encoding_by_extension rotStub resampleStub envOkPng "http://host/photo.PNG"
      srcSample _ rfl (by decide) rfl rfl
      (Option.some_get pipelineSample_isSome).symm).1 (by decide)

/-- C10: with the logo file present but undecodable, the health endpoint
still reports logo_exists true (it checks existence only) while any
watermark request with a url returns 500: health success does not imply
watermark success. -/
theorem C10_health_does_not_imply_success (rot : Image → Image)
    (resample : Image → ℕ → ℕ → Image) (env : Env) (u : String)
    (hex : env.logoFileExists = true) (hdec : env.logoDecodes = false)
    (hu : env.urlParam = some u) (hne : u ≠ "") :
    (health_check env).logo_exists = true ∧
    (watermark_image rot resample env).status = 500 := by
  constructor
  · simp [health_check, hex]
  · simp [watermark_image, hu, hne, check_logo, hex, hdec]

/-- C10 witness: the concrete environment with an existing but undecodable
logo file reports logo_exists true and answers the watermark request with
500. -/
theorem C10_health_does_not_imply_success_witness :
    (health_check envBadLogo).logo_exists = true ∧
    (watermark_image rotStub resampleStub envBadLogo).status = 500 :=
  C10_health_does_not_imply_success rotStub resampleStub envBadLogo
    "http://host/photo.jpg" rfl rfl rfl (by decide)

end Getmark
